import Mathlib

/-!
Verification of the event queue and job dispatcher of `src/gradio/event_queue.py`.

The Python module keeps all dispatcher state as class-level attributes of the
class `Queue` (lines 21-36).  We embed that state as a Lean structure, also
called `Queue`, and each classmethod as a pure function on that structure.
Events (`class Event`, lines 230-253) are identified by their identity; the
pending queue `EVENT_QUEUE` and the slot pool `ACTIVE_JOBS` store those
identities.  Durations and the ETA are Python floats; we model their arithmetic
exactly over `ℚ`, with Python's `round` (banker's rounding, round half to even)
modelled on rationals.  Channel I/O (`websocket.send_json` / `receive_json`) is
modelled by an oracle giving the result of each successive send and receive
attempt: a send attempt returns a boolean (`Event.send_message`, lines 241-246,
returns `False` on any exception) and a receive attempt returns the message or
`none` (`Event.get_message`, lines 248-253, returns `None` on any exception).
-/

/-- Identity of an `Event` object (its `hash` / object identity). -/
abbrev EventId : Type := Nat

/-- Wire payloads are opaque to the dispatcher; we model them abstractly. -/
abbrev Json : Type := Nat

/-- The dispatcher state: the class-level attributes of `class Queue`
(src/gradio/event_queue.py, lines 21-36). -/
structure Queue where
  EVENT_QUEUE : List EventId
  STOP : Bool
  MAX_THREAD_COUNT : Nat
  DATA_GATHERING_STARTS_AT : Nat
  UPDATE_INTERVALS : Int
  ACTIVE_JOBS : List (Option EventId)
  SERVER_PATH : Option String
  DURATION_HISTORY_SIZE : Nat
  DURATION_HISTORY : List ℚ
  ESTIMATION : ℚ
  LIVE_QUEUE_UPDATES : Bool
  SLEEP_WHEN_FREE : ℚ
  deriving DecidableEq

/-- The initial class attribute values (lines 22-36). -/
def Queue.initState : Queue where
  EVENT_QUEUE := []
  STOP := false
  MAX_THREAD_COUNT := 1
  DATA_GATHERING_STARTS_AT := 30
  UPDATE_INTERVALS := 10
  ACTIVE_JOBS := [none]
  SERVER_PATH := none
  DURATION_HISTORY_SIZE := 100
  DURATION_HISTORY := []
  ESTIMATION := 1
  LIVE_QUEUE_UPDATES := true
  SLEEP_WHEN_FREE := 1/1000

/-- Queue.configure_queue (lines 38-60).  Sets the run parameters and re-sizes
the slot pool; `update_intervals` is replaced by 10 exactly when
`live_queue_updates is False and update_intervals == 5` (lines 52-53). -/
def Queue.configure_queue (s : Queue) (server_path : String)
    (live_queue_updates : Bool) (queue_concurrency_count : Nat)
    (data_gathering_start : Nat) (update_intervals : Int)
    (duration_history_size : Nat) : Queue :=
  let update_intervals :=
    if live_queue_updates = false ∧ update_intervals = 5 then 10
    else update_intervals
  { s with
    SERVER_PATH := some server_path
    LIVE_QUEUE_UPDATES := live_queue_updates
    MAX_THREAD_COUNT := queue_concurrency_count
    DATA_GATHERING_STARTS_AT := data_gathering_start
    UPDATE_INTERVALS := update_intervals
    DURATION_HISTORY_SIZE := duration_history_size
    ACTIVE_JOBS := List.replicate queue_concurrency_count none }

/-- Queue.push (lines 102-104): `cls.EVENT_QUEUE.append(event)`, append at the
tail of the pending queue. -/
def Queue.push (s : Queue) (e : EventId) : Queue :=
  { s with EVENT_QUEUE := s.EVENT_QUEUE ++ [e] }

/-- Queue.clean_event (lines 110-118): `cls.EVENT_QUEUE.remove(event)` inside
try/except ValueError - removes the first occurrence if present, silently does
nothing otherwise.  `List.erase` has exactly this behaviour. -/
def Queue.clean_event (s : Queue) (e : EventId) : Queue :=
  { s with EVENT_QUEUE := s.EVENT_QUEUE.erase e }

/-- Replace the first slot holding `some e` by `none`; helper for
`ACTIVE_JOBS[ACTIVE_JOBS.index(event)] = None`.  (Python's `index` raises if
the event occupies no slot; callers only use it on admitted events, and the
theorems below carry the corresponding membership hypothesis.) -/
def cleanJobSlots : List (Option EventId) → EventId → List (Option EventId)
  | [], _ => []
  | x :: rest, e => if x = some e then none :: rest else x :: cleanJobSlots rest e

/-- Queue.clean_job (lines 106-108): frees the slot occupied by the event. -/
def Queue.clean_job (s : Queue) (e : EventId) : Queue :=
  { s with ACTIVE_JOBS := cleanJobSlots s.ACTIVE_JOBS e }

/-- Replace the first `none` slot by `some e`; helper for
`ACTIVE_JOBS[ACTIVE_JOBS.index(None)] = event` (line 95). -/
def setFirstNone : List (Option EventId) → EventId → List (Option EventId)
  | [], _ => []
  | none :: rest, e => some e :: rest
  | some x :: rest, e => some x :: setFirstNone rest e

/-- One productive iteration of the admission loop Queue.start_processing
(lines 79-100): if the pending queue is non-empty and some slot is free, pop
the head of the queue (line 92) and place it into the first free slot
(line 95); otherwise the iteration changes nothing (the `continue` branches at
lines 81-87). -/
def Queue.admitStep (s : Queue) : Queue :=
  match s.EVENT_QUEUE with
  | [] => s
  | e :: rest =>
    if none ∈ s.ACTIVE_JOBS then
      { s with EVENT_QUEUE := rest, ACTIVE_JOBS := setFirstNone s.ACTIVE_JOBS e }
    else s

/-- Round a rational to the nearest integer, halves to the even neighbour:
the behaviour of Python's builtin `round`. -/
def bankersRound (q : ℚ) : ℤ :=
  let f : ℤ := ⌊q⌋
  let r : ℚ := q - f
  if r < 1/2 then f
  else if 1/2 < r then f + 1
  else if f % 2 = 0 then f else f + 1

/-- Python's `round(q, n)` on the exact rational value. -/
def pyRound (q : ℚ) (n : ℕ) : ℚ :=
  (bankersRound (q * 10 ^ n) : ℚ) / 10 ^ n

/-- Queue.update_estimation (lines 183-198): append the duration to the
history, evict the oldest entry when over capacity, then recompute
`ESTIMATION = round(sum(history)/len(history)/MAX_THREAD_COUNT + duration, 2)`
from the post-eviction history. -/
def Queue.update_estimation (s : Queue) (duration : ℚ) : Queue :=
  let hist0 := s.DURATION_HISTORY ++ [duration]
  let hist := if s.DURATION_HISTORY_SIZE < hist0.length then hist0.tail else hist0
  { s with
    DURATION_HISTORY := hist
    ESTIMATION :=
      pyRound (hist.sum / (hist.length : ℚ) / (s.MAX_THREAD_COUNT : ℚ) + duration) 2 }

/-- Truncation of a rational toward zero: the effect of Python's `int(x)`,
which is how pydantic v1 coerces a float into an `int`-annotated field. -/
def intTrunc (q : ℚ) : ℤ :=
  if 0 ≤ q then ⌊q⌋ else ⌈q⌉

/-- The pydantic model Estimation (lines 15-18); `queue_size` and
`queue_duration` are declared `int`. -/
structure Estimation where
  msg : Option String := some "estimation"
  queue_size : Int
  queue_duration : Int
  deriving DecidableEq

/-- Queue.get_estimation (lines 200-204): builds the Estimation message from
the pending-queue length and the current ETA; pydantic coerces the float
`ESTIMATION` into the `int` field `queue_duration` by truncation. -/
def Queue.get_estimation (s : Queue) : Estimation where
  queue_size := (s.EVENT_QUEUE.length : Int)
  queue_duration := intTrunc s.ESTIMATION

/-- An Event object (lines 230-236): identity plus the lazily fetched
payload `data` (initially `None`). -/
structure Event where
  hash : EventId
  data : Option Json
  deriving DecidableEq

/-- Behaviour of the client channel (the websocket), as an oracle: `sendOk n`
is the result of the n-th send attempt (`Event.send_message` returns `True` on
success and `False` on any exception, lines 241-246); `recvRes n` is the
result of the n-th receive attempt (`Event.get_message` returns the message,
or `None` on any exception, lines 248-253). -/
structure Channel where
  sendOk : Nat → Bool
  recvRes : Nat → Option Json

/-- A channel that is dead throughout: every send fails and every receive
yields nothing. -/
def Channel.dead : Channel where
  sendOk := fun _ => false
  recvRes := fun _ => none

/-- The logical messages the dispatcher sends to a client. -/
inductive Msg where
  | send_data : Msg
  | process_starts : Msg
  | process_completed (output : Json) : Msg
  | estimation (e : Estimation) : Msg
  deriving DecidableEq

/-- Result of running Queue.gather_event_data on a dispatcher state. -/
structure GatherOut where
  state : Queue
  event : Event
  sendIdx : Nat
  recvIdx : Nat
  sends : List (Msg × Bool)
  deriving DecidableEq

/-- Queue.gather_event_data (lines 132-147): if the payload is absent, send
"send_data"; when that send fails, remove the event from the pending queue
(clean_event) and return without receiving; when it succeeds, set `event.data`
to the result of one receive attempt - which is `None` when the receive fails,
with no check and no removal.  `sendIdx`/`recvIdx` count the channel
operations already consumed. -/
def Queue.gather_event_data (ch : Channel) (s : Queue) (ev : Event)
    (sendIdx recvIdx : Nat) : GatherOut :=
  if ev.data.isSome then
    { state := s, event := ev, sendIdx := sendIdx, recvIdx := recvIdx, sends := [] }
  else if ch.sendOk sendIdx then
    { state := s
      event := { ev with data := ch.recvRes recvIdx }
      sendIdx := sendIdx + 1
      recvIdx := recvIdx + 1
      sends := [(Msg.send_data, true)] }
  else
    { state := s.clean_event ev.hash
      event := ev
      sendIdx := sendIdx + 1
      recvIdx := recvIdx
      sends := [(Msg.send_data, false)] }

/-- Modelled from the spec: the Backend Invoker (`gradio.utils.Request`,
imported at line 12) is not under src/.  Per the spec it "performs the actual
prediction call given a job's payload and returns a result or failure"; the
awaited value exposes a `json` field (used at line 223) carrying the result
or, on failure, the failure information.  It does not raise. -/
inductive BackendResult where
  | ok (output : Json) : BackendResult
  | failure (err : Json) : BackendResult
  deriving DecidableEq

/-- Modelled from the spec: the `response.json` value delivered to the client
at line 223 - the successful output, or the failure information. -/
def BackendResult.json : BackendResult → Json
  | .ok output => output
  | .failure err => err

/-- Result of running Queue.process_event on a dispatcher state. -/
structure ProcOut where
  state : Queue
  event : Event
  sends : List (Msg × Bool)
  started : Bool
  backendInvoked : Bool
  disconnected : Bool
  deriving DecidableEq

/-- Queue.process_event (lines 206-227), the execution of an admitted job:
gather the payload; send "process_starts" - if that send fails, free the slot
(clean_job) and return; otherwise invoke the backend (`response` is the
awaited value, `duration` the observed wall-clock duration already rounded to
3 digits by the caller), update the estimator, send "process_completed" with
`response.json`, close the channel only if that delivery succeeded, and free
the slot. -/
def Queue.process_event (ch : Channel) (response : BackendResult)
    (duration : ℚ) (s : Queue) (ev : Event) : ProcOut :=
  let g := Queue.gather_event_data ch s ev 0 0
  let started := ch.sendOk g.sendIdx
  if started then
    let s1 := g.state.update_estimation duration
    let delivered := ch.sendOk (g.sendIdx + 1)
    { state := s1.clean_job ev.hash
      event := g.event
      sends := g.sends ++
        [(Msg.process_starts, true), (Msg.process_completed response.json, delivered)]
      started := true
      backendInvoked := true
      disconnected := delivered }
  else
    { state := g.state.clean_job ev.hash
      event := g.event
      sends := g.sends ++ [(Msg.process_starts, false)]
      started := false
      backendInvoked := false
      disconnected := false }

/-- The estimation messages produced by Queue.broadcast_estimation
(lines 162-168): `get_estimation` is computed once and its dict is sent to
every event currently in the pending queue. -/
def Queue.broadcast_estimation_msgs (s : Queue) : List Msg :=
  s.EVENT_QUEUE.map (fun _ => Msg.estimation s.get_estimation)

/-- The atomic dispatcher state transitions.  `push` carries the caller-side
uniqueness contract on enqueued events (duplicate enqueue is caller error per
the spec); `clean_job` carries Python's precondition that
`ACTIVE_JOBS.index(event)` succeeds.  `admitStep` covers one iteration of the
admission loop (its pop and slot assignment run with no intervening await,
hence atomically under cooperative scheduling); `clean_event` covers both
cancellation and dead-channel cleanup; `update_estimation` the estimator
update on job completion; `close`/`resume` the STOP flag. -/
inductive Queue.Step : Queue → Queue → Prop where
  | push (s : Queue) (e : EventId) (h1 : e ∉ s.EVENT_QUEUE)
      (h2 : some e ∉ s.ACTIVE_JOBS) : Queue.Step s (s.push e)
  | admitJob (s : Queue) : Queue.Step s s.admitStep
  | clean_event (s : Queue) (e : EventId) : Queue.Step s (s.clean_event e)
  | clean_job (s : Queue) (e : EventId) (h : some e ∈ s.ACTIVE_JOBS) :
      Queue.Step s (s.clean_job e)
  | update_estimation (s : Queue) (d : ℚ) : Queue.Step s (s.update_estimation d)
  | close (s : Queue) : Queue.Step s { s with STOP := true }
  | resume (s : Queue) : Queue.Step s { s with STOP := false }

/-- The reachable dispatcher states: configure_queue is called once on the
initial class state (before `init` starts the loops), then any sequence of
atomic transitions runs. -/
inductive Queue.Reachable : Queue → Prop where
  | init (server_path : String) (live_queue_updates : Bool)
      (queue_concurrency_count : Nat) (data_gathering_start : Nat)
      (update_intervals : Int) (duration_history_size : Nat) :
      Queue.Reachable (Queue.initState.configure_queue server_path
        live_queue_updates queue_concurrency_count data_gathering_start
        update_intervals duration_history_size)
  | step {s s' : Queue} (hs : Queue.Reachable s) (hstep : Queue.Step s s') :
      Queue.Reachable s'

/-- The multiset of jobs occupying slots. -/
def occupiedJobs (s : Queue) : List EventId :=
  s.ACTIVE_JOBS.filterMap id

/-- The dispatcher invariant: the slot pool has exactly the configured length,
and the pending queue followed by the occupied slots lists no job identity
twice (so the queue has no duplicates, no job sits in two slots, and no job is
both queued and in a slot). -/
def Queue.Inv (s : Queue) : Prop :=
  s.ACTIVE_JOBS.length = s.MAX_THREAD_COUNT ∧
  (s.EVENT_QUEUE ++ occupiedJobs s).Nodup

/-- An operation observed by the pending queue in a run with enqueues and
admission-loop iterations only (no cancellations). -/
inductive POp where
  | push (e : EventId) : POp
  | admitJob : POp

/-- The events enqueued by a sequence of operations, in arrival order. -/
def pushedOf : List POp → List EventId
  | [] => []
  | POp.push e :: rest => e :: pushedOf rest
  | POp.admitJob :: rest => pushedOf rest

/-- Run a sequence of enqueue / admission-iteration operations from a state,
returning the final state and the admitted events in admission order.  An
admission iteration admits the head of the pending queue when the queue is
non-empty and a slot is free, exactly as Queue.admitStep; otherwise it admits
nothing. -/
def applyOps : Queue → List POp → Queue × List EventId
  | s, [] => (s, [])
  | s, POp.push e :: rest => applyOps (s.push e) rest
  | s, POp.admitJob :: rest =>
    match s.EVENT_QUEUE with
    | [] => applyOps s rest
    | e :: _ =>
      if none ∈ s.ACTIVE_JOBS then
        let r := applyOps s.admitStep rest
        (r.1, e :: r.2)
      else applyOps s rest

theorem length_setFirstNone (l : List (Option EventId)) (e : EventId) :
    (setFirstNone l e).length = l.length := by
  induction l with
  | nil => rfl
  | cons x rest ih =>
    cases x with
    | none => rfl
    | some y => simpa [setFirstNone] using ih

theorem length_cleanJobSlots (l : List (Option EventId)) (e : EventId) :
    (cleanJobSlots l e).length = l.length := by
  induction l with
  | nil => rfl
  | cons x rest ih =>
    by_cases h : x = some e <;> simp [cleanJobSlots, h, ih]

theorem mem_filterMap_id (l : List (Option EventId)) (e : EventId) :
    e ∈ l.filterMap id ↔ some e ∈ l := by
  simp [List.mem_filterMap]

theorem filterMap_setFirstNone_perm (l : List (Option EventId)) (e : EventId)
    (h : none ∈ l) :
    List.Perm ((setFirstNone l e).filterMap id) (e :: l.filterMap id) := by
  induction l with
  | nil => cases h
  | cons x rest ih =>
    cases x with
    | none => simp [setFirstNone]
    | some y =>
      have hrest : none ∈ rest := by
        rcases List.mem_cons.mp h with h' | h'
        · cases h'
        · exact h'
      have step1 : (setFirstNone (some y :: rest) e).filterMap id =
          y :: (setFirstNone rest e).filterMap id := by simp [setFirstNone]
      have step2 : List.Perm (y :: (setFirstNone rest e).filterMap id)
          (y :: e :: rest.filterMap id) := (ih hrest).cons y
      have step3 : List.Perm (y :: e :: rest.filterMap id)
          (e :: y :: rest.filterMap id) := List.Perm.swap e y _
      have step4 : e :: y :: rest.filterMap id =
          e :: (some y :: rest).filterMap id := by simp
      rw [step1, ← step4]
      exact step2.trans step3

theorem filterMap_cleanJobSlots_sublist (l : List (Option EventId)) (e : EventId) :
    List.Sublist ((cleanJobSlots l e).filterMap id) (l.filterMap id) := by
  induction l with
  | nil => exact List.Sublist.refl _
  | cons x rest ih =>
    by_cases h : x = some e
    · subst h
      simp only [cleanJobSlots, if_pos rfl, List.filterMap_cons_none,
        List.filterMap_cons_some, id]
      exact List.sublist_cons_self e (rest.filterMap id)
    · cases x with
      | none => simpa [cleanJobSlots, h] using ih
      | some y => simpa [cleanJobSlots, h] using ih.cons₂ y

theorem filterMap_id_replicate_none (n : Nat) :
    (List.replicate n (none : Option EventId)).filterMap id = [] := by
  induction n with
  | zero => rfl
  | succ k ih => simp [List.replicate_succ, ih]

theorem Queue.Inv_configure (s : Queue) (p : String) (live : Bool)
    (cc gs : Nat) (ui : Int) (hs : Nat)
    (hq : s.EVENT_QUEUE = []) :
    (s.configure_queue p live cc gs ui hs).Inv := by
  constructor
  · simp [Queue.configure_queue]
  · simp [Queue.configure_queue, occupiedJobs, hq, filterMap_id_replicate_none]

theorem Queue.Inv_step {s s' : Queue} (hs : s.Inv) (h : Queue.Step s s') :
    s'.Inv := by
  obtain ⟨hlen, hnodup⟩ := hs
  cases h with
  | push e h1 h2 =>
    refine ⟨hlen, ?_⟩
    have he : e ∉ s.EVENT_QUEUE ++ occupiedJobs s := by
      intro hmem
      rcases List.mem_append.mp hmem with h' | h'
      · exact h1 h'
      · exact h2 ((mem_filterMap_id _ _).mp h')
    have hcons : (e :: (s.EVENT_QUEUE ++ occupiedJobs s)).Nodup :=
      List.nodup_cons.mpr ⟨he, hnodup⟩
    have hmid := (@List.nodup_middle EventId e s.EVENT_QUEUE
      (occupiedJobs s)).mpr hcons
    simpa [Queue.push, occupiedJobs] using hmid
  | admitJob =>
    match hq : s.EVENT_QUEUE with
    | [] =>
      refine ⟨?_, ?_⟩
      · simp [Queue.admitStep, hq, hlen]
      · simp only [Queue.admitStep, hq]
        simpa [hq] using hnodup
    | e :: rest =>
      by_cases hfree : none ∈ s.ACTIVE_JOBS
      · have hperm : List.Perm ((setFirstNone s.ACTIVE_JOBS e).filterMap id)
            (e :: s.ACTIVE_JOBS.filterMap id) :=
          filterMap_setFirstNone_perm _ _ hfree
        constructor
        · simp [Queue.admitStep, hq, hfree, length_setFirstNone, hlen]
        · have hperm2 : List.Perm
              (rest ++ (setFirstNone s.ACTIVE_JOBS e).filterMap id)
              (rest ++ (e :: s.ACTIVE_JOBS.filterMap id)) :=
            hperm.append_left rest
          have hperm3 : List.Perm (rest ++ (e :: s.ACTIVE_JOBS.filterMap id))
              (e :: (rest ++ s.ACTIVE_JOBS.filterMap id)) :=
            List.perm_middle
          have hsrc : (e :: (rest ++ s.ACTIVE_JOBS.filterMap id)).Nodup := by
            simpa [hq, occupiedJobs] using hnodup
          have hres := ((hperm2.trans hperm3).nodup_iff).mpr hsrc
          simpa [Queue.admitStep, hq, hfree, occupiedJobs] using hres
      · refine ⟨?_, ?_⟩
        · simp [Queue.admitStep, hq, hfree, hlen]
        · simp only [Queue.admitStep, hq, hfree, if_neg]
          simpa [hq] using hnodup
  | clean_event e =>
    refine ⟨hlen, ?_⟩
    have hsub : List.Sublist (s.EVENT_QUEUE.erase e ++ occupiedJobs s)
        (s.EVENT_QUEUE ++ occupiedJobs s) :=
      List.Sublist.append (s.EVENT_QUEUE.erase_sublist e) (List.Sublist.refl _)
    simpa [Queue.clean_event, occupiedJobs] using hnodup.sublist hsub
  | clean_job e h =>
    constructor
    · simp [Queue.clean_job, length_cleanJobSlots, hlen]
    · have hsub : List.Sublist
          (s.EVENT_QUEUE ++ (cleanJobSlots s.ACTIVE_JOBS e).filterMap id)
          (s.EVENT_QUEUE ++ occupiedJobs s) :=
        List.Sublist.append (List.Sublist.refl _)
          (filterMap_cleanJobSlots_sublist _ _)
      simpa [Queue.clean_job, occupiedJobs] using hnodup.sublist hsub
  | update_estimation d => exact ⟨hlen, hnodup⟩
  | close => exact ⟨hlen, hnodup⟩
  | resume => exact ⟨hlen, hnodup⟩

theorem Queue.Inv_reachable {s : Queue} (h : Queue.Reachable s) : s.Inv := by
  induction h with
  | init p live cc gs ui hs => exact Queue.Inv_configure _ p live cc gs ui hs rfl
  | step hs hstep ih => exact Queue.Inv_step ih hstep


theorem applyOps_fifo (s : Queue) (ops : List POp) :
    (applyOps s ops).2 ++ (applyOps s ops).1.EVENT_QUEUE =
      s.EVENT_QUEUE ++ pushedOf ops := by
  induction ops generalizing s with
  | nil => simp [applyOps, pushedOf]
  | cons op rest ih =>
    cases op with
    | push e =>
      have h := ih (s.push e)
      simpa [applyOps, pushedOf, Queue.push, List.append_assoc] using h
    | admitJob =>
      rcases hq : s.EVENT_QUEUE with _ | ⟨e, t⟩
      · have h := ih s
        simpa [applyOps, pushedOf, hq] using h
      · by_cases hfree : none ∈ s.ACTIVE_JOBS
        · have h := ih s.admitStep
          have hq' : s.admitStep.EVENT_QUEUE = t := by
            simp [Queue.admitStep, hq, hfree]
          simp only [applyOps, hq, hfree, if_pos, pushedOf]
          rw [List.cons_append, h, hq']
          simp
        · have h := ih s
          simp only [applyOps, hq, hfree, if_neg, pushedOf, ite_false]
          rw [h, hq]

theorem some_not_mem_cleanJobSlots (l : List (Option EventId)) (e : EventId)
    (h : (l.filterMap id).Nodup) : some e ∉ cleanJobSlots l e := by
  induction l with
  | nil => simp [cleanJobSlots]
  | cons x rest ih =>
    by_cases hx : x = some e
    · subst hx
      have hnomem : e ∉ rest.filterMap id := by
        have : (e :: rest.filterMap id).Nodup := by simpa using h
        exact (List.nodup_cons.mp this).1
      have : some e ∉ rest := fun hmem =>
        hnomem ((mem_filterMap_id rest e).mpr hmem)
      simp [cleanJobSlots, this]
    · have hrest : (rest.filterMap id).Nodup := by
        cases x with
        | none => simpa using h
        | some y => exact (List.nodup_cons.mp (by simpa using h)).2
      intro hmem
      rcases List.mem_cons.mp (by simpa [cleanJobSlots, hx] using hmem) with h' | h'
      · exact hx h'.symm
      · exact ih hrest h'

theorem gather_event_data_ACTIVE_JOBS (ch : Channel) (s : Queue) (ev : Event)
    (si ri : Nat) :
    (Queue.gather_event_data ch s ev si ri).state.ACTIVE_JOBS = s.ACTIVE_JOBS := by
  by_cases hd : ev.data.isSome
  · simp [Queue.gather_event_data, hd]
  · by_cases hs : ch.sendOk si
    · simp [Queue.gather_event_data, hd, hs]
    · simp [Queue.gather_event_data, hd, hs, Queue.clean_event]

theorem update_estimation_ACTIVE_JOBS (s : Queue) (d : ℚ) :
    (s.update_estimation d).ACTIVE_JOBS = s.ACTIVE_JOBS := rfl

theorem process_event_state_ACTIVE_JOBS (ch : Channel) (resp : BackendResult)
    (dur : ℚ) (s : Queue) (ev : Event) :
    (Queue.process_event ch resp dur s ev).state.ACTIVE_JOBS =
      cleanJobSlots s.ACTIVE_JOBS ev.hash := by
  by_cases hc : ch.sendOk (Queue.gather_event_data ch s ev 0 0).sendIdx
  · simp [Queue.process_event, hc, Queue.clean_job, update_estimation_ACTIVE_JOBS,
      gather_event_data_ACTIVE_JOBS]
  · simp [Queue.process_event, hc, Queue.clean_job, gather_event_data_ACTIVE_JOBS]

/-- C1: at every reachable dispatcher state, the number of occupied slots is
at most the configured concurrency limit MAX_THREAD_COUNT, and no job identity
appears twice across the pending queue and the slot pool - in particular no
job occupies two slots, and no job is simultaneously in a slot and in the
pending queue (the Nodup of the concatenation states exactly this). -/
theorem reachable_slot_occupancy {s : Queue} (h : Queue.Reachable s) :
    (occupiedJobs s).length ≤ s.MAX_THREAD_COUNT ∧
    (s.EVENT_QUEUE ++ occupiedJobs s).Nodup := by
  obtain ⟨hlen, hnodup⟩ := Queue.Inv_reachable h
  refine ⟨?_, hnodup⟩
  calc (occupiedJobs s).length ≤ s.ACTIVE_JOBS.length :=
        List.length_filterMap_le id s.ACTIVE_JOBS
    _ = s.MAX_THREAD_COUNT := hlen

/-- Witness for C1 at a concrete reachable state: configure with concurrency
limit 2, enqueue event 7, run one admission iteration. -/
theorem reachable_slot_occupancy_witness :
    (occupiedJobs ((Queue.initState.configure_queue "p" true 2 30 5 100).push
        7).admitStep).length ≤
      ((Queue.initState.configure_queue "p" true 2 30 5 100).push
        7).admitStep.MAX_THREAD_COUNT ∧
    (((Queue.initState.configure_queue "p" true 2 30 5 100).push
        7).admitStep.EVENT_QUEUE ++
      occupiedJobs ((Queue.initState.configure_queue "p" true 2 30 5
        100).push 7).admitStep).Nodup :=
  reachable_slot_occupancy
    (Queue.Reachable.step
      (Queue.Reachable.step (Queue.Reachable.init "p" true 2 30 5 100)
        (Queue.Step.push _ _ (by decide) (by decide)))
      (Queue.Step.admitJob _))

/-- C2: push appends at the tail of the pending queue, and over any sequence
of enqueues and admission-loop iterations (no cancellations) the admitted
events followed by the remaining pending queue equal the enqueued events in
arrival order - so admission is FIFO with the head always removed, with no
reordering or priority. -/
theorem enqueue_fifo_admission (s : Queue) (ops : List POp)
    (h : s.EVENT_QUEUE = []) :
    (∀ t : Queue, ∀ e : EventId, (t.push e).EVENT_QUEUE = t.EVENT_QUEUE ++ [e]) ∧
    (applyOps s ops).2 ++ (applyOps s ops).1.EVENT_QUEUE = pushedOf ops := by
  refine ⟨fun t e => rfl, ?_⟩
  have hfifo := applyOps_fifo s ops
  rw [h] at hfifo
  simpa using hfifo

/-- Witness for C2: enqueue events 1, 2, 3 under concurrency limit 1 and run
two admission iterations; event 1 is admitted, 2 and 3 stay queued in order. -/
theorem enqueue_fifo_admission_witness :
    (∀ t : Queue, ∀ e : EventId, (t.push e).EVENT_QUEUE = t.EVENT_QUEUE ++ [e]) ∧
    (applyOps (Queue.initState.configure_queue "p" true 1 30 5 100)
        [POp.push 1, POp.push 2, POp.push 3, POp.admitJob, POp.admitJob]).2 ++
      (applyOps (Queue.initState.configure_queue "p" true 1 30 5 100)
        [POp.push 1, POp.push 2, POp.push 3, POp.admitJob, POp.admitJob]).1.EVENT_QUEUE =
      pushedOf [POp.push 1, POp.push 2, POp.push 3, POp.admitJob, POp.admitJob] :=
  enqueue_fifo_admission (Queue.initState.configure_queue "p" true 1 30 5 100)
    [POp.push 1, POp.push 2, POp.push 3, POp.admitJob, POp.admitJob] rfl

/-- C7: clean_event (the cancel operation) removes the job from the pending
queue exactly when present (the queue shrinks by one entry, the first
occurrence is erased); on a job absent from the pending queue - unknown,
already removed, or admitted into a slot - it is a silent no-op leaving the
entire state unchanged; it never touches the slot pool. -/
theorem clean_event_cancel (s : Queue) (e : EventId) :
    (s.clean_event e).ACTIVE_JOBS = s.ACTIVE_JOBS ∧
    (e ∉ s.EVENT_QUEUE → s.clean_event e = s) ∧
    (e ∈ s.EVENT_QUEUE →
      (s.clean_event e).EVENT_QUEUE = s.EVENT_QUEUE.erase e ∧
      (s.clean_event e).EVENT_QUEUE.length + 1 = s.EVENT_QUEUE.length) := by
  refine ⟨rfl, ?_, ?_⟩
  · intro hmem
    have herase : s.EVENT_QUEUE.erase e = s.EVENT_QUEUE :=
      List.erase_of_not_mem hmem
    cases s
    simp_all [Queue.clean_event]
  · intro hmem
    refine ⟨rfl, ?_⟩
    have h1 := List.length_erase_of_mem hmem
    have h2 : (s.clean_event e).EVENT_QUEUE = s.EVENT_QUEUE.erase e := rfl
    have h3 : s.EVENT_QUEUE.length ≠ 0 := by
      cases hq : s.EVENT_QUEUE with
      | nil => rw [hq] at hmem; cases hmem
      | cons a l => simp [hq]
    rw [h2, h1]
    omega

/-- Witness for C7: cancelling event 2 from pending queue [1, 2] removes it;
cancelling the absent event 9 changes nothing. -/
theorem clean_event_cancel_witness :
    (({ Queue.initState with EVENT_QUEUE := [1, 2] } : Queue).clean_event
        2).EVENT_QUEUE = [1, 2].erase 2 ∧
    ({ Queue.initState with EVENT_QUEUE := [1, 2] } : Queue).clean_event 9 =
      { Queue.initState with EVENT_QUEUE := [1, 2] } :=
  ⟨((clean_event_cancel { Queue.initState with EVENT_QUEUE := [1, 2] } 2).2.2
      (by decide)).1,
   (clean_event_cancel { Queue.initState with EVENT_QUEUE := [1, 2] } 9).2.1
      (by decide)⟩

/-- C9: configure_queue stores the broadcast interval 10 exactly when
live-updates is disabled and the passed interval is the default 5; for every
other combination of flag and interval the passed value is stored verbatim. -/
theorem configure_update_intervals_quirk (s : Queue) (p : String)
    (cc gs hsz : Nat) (live : Bool) (ui : Int) :
    (live = false ∧ ui = 5 →
      (s.configure_queue p live cc gs ui hsz).UPDATE_INTERVALS = 10) ∧
    (¬(live = false ∧ ui = 5) →
      (s.configure_queue p live cc gs ui hsz).UPDATE_INTERVALS = ui) := by
  constructor
  · rintro ⟨h1, h2⟩
    simp [Queue.configure_queue, h1, h2]
  · intro hne
    simp only [Queue.configure_queue, if_neg hne]

/-- Witness for C9: live-updates off with interval 5 stores 10; live-updates
on with interval 5 stores 5; live-updates off with interval 7 stores 7. -/
theorem configure_update_intervals_quirk_witness :
    (Queue.initState.configure_queue "p" false 1 30 5 100).UPDATE_INTERVALS = 10 ∧
    (Queue.initState.configure_queue "p" true 1 30 5 100).UPDATE_INTERVALS = 5 ∧
    (Queue.initState.configure_queue "p" false 1 30 7 100).UPDATE_INTERVALS = 7 :=
  ⟨(configure_update_intervals_quirk Queue.initState "p" 1 30 100 false 5).1
      ⟨rfl, rfl⟩,
   (configure_update_intervals_quirk Queue.initState "p" 1 30 100 true 5).2
      (by simp),
   (configure_update_intervals_quirk Queue.initState "p" 1 30 100 false 7).2
      (by simp)⟩

/-- C3: after each update_estimation call the stored ESTIMATION equals the
average of the retained (post-eviction) duration history, divided by the
configured concurrency limit, plus the duration just recorded, rounded to two
decimal places; and whenever the history consists of one repeated duration d
(in particular once the window is filled with identical durations), the
estimate is d divided by the limit plus d, rounded to two decimals. -/
theorem update_estimation_eta (s : Queue) (d : ℚ)
    (_hc : 0 < s.MAX_THREAD_COUNT) (hsize : 0 < s.DURATION_HISTORY_SIZE) :
    ((s.update_estimation d).ESTIMATION =
      pyRound ((s.update_estimation d).DURATION_HISTORY.sum /
        ((s.update_estimation d).DURATION_HISTORY.length : ℚ) /
        (s.MAX_THREAD_COUNT : ℚ) + d) 2) ∧
    (s.DURATION_HISTORY = List.replicate s.DURATION_HISTORY.length d →
      (s.update_estimation d).ESTIMATION =
        pyRound (d / (s.MAX_THREAD_COUNT : ℚ) + d) 2) := by
  have hmain : (s.update_estimation d).ESTIMATION =
      pyRound ((s.update_estimation d).DURATION_HISTORY.sum /
        ((s.update_estimation d).DURATION_HISTORY.length : ℚ) /
        (s.MAX_THREAD_COUNT : ℚ) + d) 2 := rfl
  refine ⟨hmain, fun hrep => ?_⟩
  have hfull : s.DURATION_HISTORY ++ [d] =
      List.replicate (s.DURATION_HISTORY.length + 1) d := by
    rw [List.replicate_succ']
    exact congrArg (fun l => l ++ [d]) hrep
  have hhist : (s.update_estimation d).DURATION_HISTORY =
      if s.DURATION_HISTORY_SIZE < (s.DURATION_HISTORY ++ [d]).length
      then (s.DURATION_HISTORY ++ [d]).tail
      else s.DURATION_HISTORY ++ [d] := rfl
  obtain ⟨k, hk, hkpos⟩ : ∃ k : ℕ,
      (s.update_estimation d).DURATION_HISTORY = List.replicate k d ∧ 0 < k := by
    by_cases hev : s.DURATION_HISTORY_SIZE < (s.DURATION_HISTORY ++ [d]).length
    · refine ⟨s.DURATION_HISTORY.length, ?_, ?_⟩
      · rw [hhist, if_pos hev, hfull, List.replicate_succ, List.tail_cons]
      · have : s.DURATION_HISTORY_SIZE < s.DURATION_HISTORY.length + 1 := by
          simpa using hev
        omega
    · exact ⟨s.DURATION_HISTORY.length + 1, by rw [hhist, if_neg hev, hfull],
        Nat.succ_pos _⟩
  have hknz : ((k : ℕ) : ℚ) ≠ 0 := Nat.cast_ne_zero.mpr hkpos.ne'
  rw [hmain, hk, List.sum_replicate, List.length_replicate, nsmul_eq_mul,
    mul_div_cancel_left₀ d hknz]

/-- Witness for C3: from the initial state (empty history, limit 1, window
100), recording a 1-second duration yields an ETA of round(1/1 + 1, 2). -/
theorem update_estimation_eta_witness :
    (Queue.initState.update_estimation 1).ESTIMATION =
      pyRound ((1 : ℚ) / ((Queue.initState.MAX_THREAD_COUNT : ℕ) : ℚ) + 1) 2 :=
  (update_estimation_eta Queue.initState 1 (by decide) (by decide)).2 rfl

/-- C10: every estimation message produced by broadcast_estimation carries
the get_estimation value, whose queue_duration field is the integer truncation
of the internally maintained rational ESTIMATION - a whole number of seconds
within one second of the internal ETA, so clients never receive a fractional
ETA. -/
theorem broadcast_estimation_whole_seconds (s : Queue) (m : Msg)
    (h : m ∈ Queue.broadcast_estimation_msgs s) :
    ∃ n : ℤ, m = Msg.estimation s.get_estimation ∧
      s.get_estimation.queue_duration = n ∧
      n = intTrunc s.ESTIMATION ∧ |(n : ℚ) - s.ESTIMATION| < 1 := by
  refine ⟨intTrunc s.ESTIMATION, ?_, rfl, rfl, ?_⟩
  · rcases List.mem_map.mp h with ⟨e, _, hm⟩
    exact hm.symm
  · unfold intTrunc
    by_cases hq : 0 ≤ s.ESTIMATION
    · rw [if_pos hq, abs_sub_lt_iff]
      constructor
      · have := Int.floor_le s.ESTIMATION
        linarith
      · have := Int.sub_one_lt_floor s.ESTIMATION
        linarith
    · rw [if_neg hq, abs_sub_lt_iff]
      constructor
      · have := Int.ceil_lt_add_one s.ESTIMATION
        linarith
      · have := Int.le_ceil s.ESTIMATION
        linarith

/-- Witness for C10: with internal ETA 3/2 and one pending event, the
broadcast message carries a whole-second queue_duration. -/
theorem broadcast_estimation_whole_seconds_witness :
    ∃ n : ℤ, Msg.estimation ({ Queue.initState with EVENT_QUEUE := [4], ESTIMATION := 3/2 } : Queue).get_estimation = Msg.estimation ({ Queue.initState with EVENT_QUEUE := [4], ESTIMATION := 3/2 } : Queue).get_estimation ∧ ({ Queue.initState with EVENT_QUEUE := [4], ESTIMATION := 3/2 } : Queue).get_estimation.queue_duration = n ∧ n = intTrunc ({ Queue.initState with EVENT_QUEUE := [4], ESTIMATION := 3/2 } : Queue).ESTIMATION ∧ |(n : ℚ) - ({ Queue.initState with EVENT_QUEUE := [4], ESTIMATION := 3/2 } : Queue).ESTIMATION| < 1 :=
  broadcast_estimation_whole_seconds
    { Queue.initState with EVENT_QUEUE := [4], ESTIMATION := 3/2 }
    (Msg.estimation ({ Queue.initState with EVENT_QUEUE := [4], ESTIMATION := 3/2 } : Queue).get_estimation)
    (by simp [Queue.broadcast_estimation_msgs])

/-- C4 counterexample: an admitted job with no payload on a dead channel.  The
fetch finds the channel dead (the send_data send fails), yet a further
message - process_starts - is still sent on that channel by process_event
(its send attempt appears in the trace), contradicting the claim that no
further message, in particular no process_starts, is ever sent there. -/
theorem dead_fetch_process_starts_attempted :
    (Queue.gather_event_data Channel.dead { Queue.initState with ACTIVE_JOBS := [some 1] } { hash := 1, data := none } 0 0).sends = [(Msg.send_data, false)] ∧
    Msg.process_starts ∈ (Queue.process_event Channel.dead (BackendResult.ok 0) 1 { Queue.initState with ACTIVE_JOBS := [some 1] } { hash := 1, data := none }).sends.map Prod.fst := by
  constructor
  · rfl
  · decide

/-- C4 (amended): when an admitted job's channel is dead (every send on it
fails), process_event releases the job's slot and abandons the job - the
backend is never invoked, the channel is never closed, and no message is ever
successfully transmitted - but a process_starts send is still attempted on the
dead channel (and fails); the slot release happens through that failed
start-notification path. -/
theorem process_event_dead_channel (ch : Channel) (resp : BackendResult)
    (dur : ℚ) (s : Queue) (ev : Event)
    (hdead : ∀ n : Nat, ch.sendOk n = false) :
    (Queue.process_event ch resp dur s ev).state.ACTIVE_JOBS =
      cleanJobSlots s.ACTIVE_JOBS ev.hash ∧
    (Queue.process_event ch resp dur s ev).backendInvoked = false ∧
    (Queue.process_event ch resp dur s ev).disconnected = false ∧
    (∀ p ∈ (Queue.process_event ch resp dur s ev).sends, p.2 = false) ∧
    Msg.process_starts ∈ (Queue.process_event ch resp dur s ev).sends.map Prod.fst ∧
    ((s.ACTIVE_JOBS.filterMap id).Nodup → some ev.hash ∈ s.ACTIVE_JOBS →
      some ev.hash ∉ (Queue.process_event ch resp dur s ev).state.ACTIVE_JOBS) := by
  have h0 := hdead 0
  have h1 := hdead 1
  have hsends : (Queue.process_event ch resp dur s ev).sends =
      [(Msg.process_starts, false)] ∨
      (Queue.process_event ch resp dur s ev).sends =
      [(Msg.send_data, false), (Msg.process_starts, false)] := by
    by_cases hd : ev.data.isSome
    · left
      simp [Queue.process_event, Queue.gather_event_data, hd, h0]
    · right
      simp [Queue.process_event, Queue.gather_event_data, hd, h0, h1]
  refine ⟨process_event_state_ACTIVE_JOBS ch resp dur s ev, ?_, ?_, ?_, ?_, ?_⟩
  · by_cases hd : ev.data.isSome
    · simp [Queue.process_event, Queue.gather_event_data, hd, h0]
    · simp [Queue.process_event, Queue.gather_event_data, hd, h0, h1]
  · by_cases hd : ev.data.isSome
    · simp [Queue.process_event, Queue.gather_event_data, hd, h0]
    · simp [Queue.process_event, Queue.gather_event_data, hd, h0, h1]
  · intro p hp
    rcases hsends with h | h
    · rw [h, List.mem_singleton] at hp
      rw [hp]
    · rw [h] at hp
      rcases List.mem_cons.mp hp with h2 | h2
      · rw [h2]
      · rw [List.mem_singleton] at h2
        rw [h2]
  · rcases hsends with h | h <;> rw [h] <;> simp
  · intro hnodup hmem
    rw [process_event_state_ACTIVE_JOBS ch resp dur s ev]
    exact some_not_mem_cleanJobSlots s.ACTIVE_JOBS ev.hash hnodup

/-- Witness for C4 (amended) on a concrete dead-channel run: event 2 with a
gathered payload occupying the single slot. -/
theorem process_event_dead_channel_witness :
    (Queue.process_event Channel.dead (BackendResult.ok 3) 1 { Queue.initState with ACTIVE_JOBS := [some 2] } { hash := 2, data := some 5 }).state.ACTIVE_JOBS = cleanJobSlots [some 2] 2 ∧
    (Queue.process_event Channel.dead (BackendResult.ok 3) 1 { Queue.initState with ACTIVE_JOBS := [some 2] } { hash := 2, data := some 5 }).backendInvoked = false ∧
    (Queue.process_event Channel.dead (BackendResult.ok 3) 1 { Queue.initState with ACTIVE_JOBS := [some 2] } { hash := 2, data := some 5 }).disconnected = false ∧
    (∀ p ∈ (Queue.process_event Channel.dead (BackendResult.ok 3) 1 { Queue.initState with ACTIVE_JOBS := [some 2] } { hash := 2, data := some 5 }).sends, p.2 = false) ∧
    Msg.process_starts ∈ (Queue.process_event Channel.dead (BackendResult.ok 3) 1 { Queue.initState with ACTIVE_JOBS := [some 2] } { hash := 2, data := some 5 }).sends.map Prod.fst ∧
    ((([some 2] : List (Option EventId)).filterMap id).Nodup → some 2 ∈ ([some 2] : List (Option EventId)) →
      some 2 ∉ (Queue.process_event Channel.dead (BackendResult.ok 3) 1 { Queue.initState with ACTIVE_JOBS := [some 2] } { hash := 2, data := some 5 }).state.ACTIVE_JOBS) :=
  process_event_dead_channel Channel.dead (BackendResult.ok 3) 1
    { Queue.initState with ACTIVE_JOBS := [some 2] } { hash := 2, data := some 5 }
    (fun _ => rfl)

/-- C5 counterexample: gathering the payload of queued event 1 on a channel
whose send succeeds but whose receive fails (dead channel detected via a
failed/empty receive).  The receive attempt is consumed and yields nothing,
yet the job is NOT removed from the pending queue - it is still queued
afterwards with its payload unset - contradicting the claimed silent removal
from all dispatcher structures. -/
theorem dead_receive_not_removed :
    (Queue.gather_event_data ⟨fun _ => true, fun _ => none⟩ { Queue.initState with EVENT_QUEUE := [1] } { hash := 1, data := none } 0 0).recvIdx = 1 ∧
    (Queue.gather_event_data ⟨fun _ => true, fun _ => none⟩ { Queue.initState with EVENT_QUEUE := [1] } { hash := 1, data := none } 0 0).event.data = none ∧
    (Queue.gather_event_data ⟨fun _ => true, fun _ => none⟩ { Queue.initState with EVENT_QUEUE := [1] } { hash := 1, data := none } 0 0).state.EVENT_QUEUE = [1] := by
  refine ⟨rfl, rfl, rfl⟩

/-- C5 (amended): during payload gathering only a failed send removes the job
- clean_event erases it from the pending queue (the slot pool is untouched)
and no receive is attempted.  A failed or empty receive removes nothing: the
dispatcher state is left completely unchanged, the payload stays unset, and a
subsequent gathering pass for the job attempts the send (and then the
receive) again, so the receive is effectively retried later. -/
theorem gather_event_data_dead_receive (ch : Channel) (s : Queue) (ev : Event)
    (si ri : Nat) (hdata : ev.data = none) :
    (ch.sendOk si = false →
      Queue.gather_event_data ch s ev si ri =
        { state := s.clean_event ev.hash, event := ev, sendIdx := si + 1,
          recvIdx := ri, sends := [(Msg.send_data, false)] }) ∧
    (ch.sendOk si = true →
      (Queue.gather_event_data ch s ev si ri).state = s ∧
      (Queue.gather_event_data ch s ev si ri).event.data = ch.recvRes ri ∧
      (Queue.gather_event_data ch s ev si ri).recvIdx = ri + 1) ∧
    (ch.sendOk si = true → ch.recvRes ri = none →
      (Queue.gather_event_data ch
        (Queue.gather_event_data ch s ev si ri).state
        (Queue.gather_event_data ch s ev si ri).event
        (Queue.gather_event_data ch s ev si ri).sendIdx
        (Queue.gather_event_data ch s ev si ri).recvIdx).sends ≠ []) := by
  have hd : ev.data.isSome = false := by rw [hdata]; rfl
  refine ⟨?_, ?_, ?_⟩
  · intro hsend
    simp [Queue.gather_event_data, hd, hsend]
  · intro hsend
    refine ⟨?_, ?_, ?_⟩ <;> simp [Queue.gather_event_data, hd, hsend]
  · intro hsend hrecv
    have hres : Queue.gather_event_data ch s ev si ri =
        { state := s, event := { ev with data := none }, sendIdx := si + 1,
          recvIdx := ri + 1, sends := [(Msg.send_data, true)] } := by
      simp [Queue.gather_event_data, hd, hsend, hrecv]
    rw [hres]
    by_cases hsend2 : ch.sendOk (si + 1) <;>
      simp [Queue.gather_event_data, hsend2]

/-- Witness for C5 (amended) at concrete inputs: queued event 1, payload
absent, send succeeding and receive failing at indices 0. -/
theorem gather_event_data_dead_receive_witness :
    (Queue.gather_event_data ⟨fun _ => true, fun _ => none⟩ { Queue.initState with EVENT_QUEUE := [1] } { hash := 1, data := none } 0 0).state = { Queue.initState with EVENT_QUEUE := [1] } ∧
    (Queue.gather_event_data ⟨fun _ => true, fun _ => none⟩ { Queue.initState with EVENT_QUEUE := [1] } { hash := 1, data := none } 0 0).event.data = (⟨fun _ => true, fun _ => none⟩ : Channel).recvRes 0 ∧
    (Queue.gather_event_data ⟨fun _ => true, fun _ => none⟩ { Queue.initState with EVENT_QUEUE := [1] } { hash := 1, data := none } 0 0).recvIdx = 0 + 1 :=
  (gather_event_data_dead_receive ⟨fun _ => true, fun _ => none⟩
    { Queue.initState with EVENT_QUEUE := [1] } { hash := 1, data := none }
    0 0 rfl).2.1 rfl

/-- C6: when the backend invocation of an admitted job yields a failure (the
Backend Invoker, modelled from the spec, returns a failure value rather than
raising), process_event does not treat it like a dead channel: the execution
records the backend as invoked and still attempts delivery of a
process_completed message whose output carries the failure information to the
waiting client, and the slot is released - the job is not silently dropped. -/
theorem backend_failure_surfaced (ch : Channel) (err : Json) (dur : ℚ)
    (s : Queue) (ev : Event)
    (hstart : (Queue.process_event ch (BackendResult.failure err) dur s ev).started = true) :
    (Queue.process_event ch (BackendResult.failure err) dur s ev).backendInvoked = true ∧
    (∃ b : Bool, (Msg.process_completed err, b) ∈
      (Queue.process_event ch (BackendResult.failure err) dur s ev).sends) ∧
    (Queue.process_event ch (BackendResult.failure err) dur s ev).state.ACTIVE_JOBS =
      cleanJobSlots s.ACTIVE_JOBS ev.hash := by
  by_cases hc : ch.sendOk (Queue.gather_event_data ch s ev 0 0).sendIdx
  · refine ⟨?_, ?_, process_event_state_ACTIVE_JOBS ch _ dur s ev⟩
    · simp [Queue.process_event, hc]
    · refine ⟨ch.sendOk ((Queue.gather_event_data ch s ev 0 0).sendIdx + 1), ?_⟩
      simp [Queue.process_event, hc, BackendResult.json]
  · exfalso
    have : (Queue.process_event ch (BackendResult.failure err) dur s ev).started =
        false := by
      simp [Queue.process_event, hc]
    rw [this] at hstart
    cases hstart

/-- Witness for C6: a live channel, slot occupied by event 3 with its payload
gathered, and a failing backend call with failure information 4. -/
theorem backend_failure_surfaced_witness :
    (Queue.process_event ⟨fun _ => true, fun _ => some 0⟩ (BackendResult.failure 4) 1 { Queue.initState with ACTIVE_JOBS := [some 3] } { hash := 3, data := some 9 }).backendInvoked = true ∧
    (∃ b : Bool, (Msg.process_completed 4, b) ∈
      (Queue.process_event ⟨fun _ => true, fun _ => some 0⟩ (BackendResult.failure 4) 1 { Queue.initState with ACTIVE_JOBS := [some 3] } { hash := 3, data := some 9 }).sends) ∧
    (Queue.process_event ⟨fun _ => true, fun _ => some 0⟩ (BackendResult.failure 4) 1 { Queue.initState with ACTIVE_JOBS := [some 3] } { hash := 3, data := some 9 }).state.ACTIVE_JOBS =
      cleanJobSlots [some 3] 3 :=
  backend_failure_surfaced ⟨fun _ => true, fun _ => some 0⟩ 4 1
    { Queue.initState with ACTIVE_JOBS := [some 3] } { hash := 3, data := some 9 }
    (by decide)

/-- C8: for an admitted job whose process_starts notification succeeded, the
last message of the execution is the process_completed delivery carrying the
backend output, the channel is closed (disconnect) exactly when that delivery
succeeds - the recorded disconnect flag equals the delivery result - and the
slot is released unconditionally in both cases. -/
theorem process_event_completion_delivery (ch : Channel) (resp : BackendResult)
    (dur : ℚ) (s : Queue) (ev : Event)
    (hstart : (Queue.process_event ch resp dur s ev).started = true) :
    (Queue.process_event ch resp dur s ev).sends.getLast? =
      some (Msg.process_completed resp.json,
        (Queue.process_event ch resp dur s ev).disconnected) ∧
    (Queue.process_event ch resp dur s ev).state.ACTIVE_JOBS =
      cleanJobSlots s.ACTIVE_JOBS ev.hash ∧
    ((s.ACTIVE_JOBS.filterMap id).Nodup → some ev.hash ∈ s.ACTIVE_JOBS →
      some ev.hash ∉ (Queue.process_event ch resp dur s ev).state.ACTIVE_JOBS) := by
  by_cases hc : ch.sendOk (Queue.gather_event_data ch s ev 0 0).sendIdx
  · refine ⟨?_, process_event_state_ACTIVE_JOBS ch resp dur s ev, ?_⟩
    · have hsends : (Queue.process_event ch resp dur s ev).sends =
          ((Queue.gather_event_data ch s ev 0 0).sends ++
            [(Msg.process_starts, true)]) ++
          [(Msg.process_completed resp.json,
            ch.sendOk ((Queue.gather_event_data ch s ev 0 0).sendIdx + 1))] := by
        simp [Queue.process_event, hc]
      have hdisc : (Queue.process_event ch resp dur s ev).disconnected =
          ch.sendOk ((Queue.gather_event_data ch s ev 0 0).sendIdx + 1) := by
        simp [Queue.process_event, hc]
      rw [hsends, hdisc, List.getLast?_concat]
    · intro hnodup hmem
      rw [process_event_state_ACTIVE_JOBS ch resp dur s ev]
      exact some_not_mem_cleanJobSlots s.ACTIVE_JOBS ev.hash hnodup
  · exfalso
    have : (Queue.process_event ch resp dur s ev).started = false := by
      simp [Queue.process_event, hc]
    rw [this] at hstart
    cases hstart

/-- Witness for C8: a live channel, slot occupied by event 4 with its payload
gathered, backend output 6. -/
theorem process_event_completion_delivery_witness :
    (Queue.process_event ⟨fun _ => true, fun _ => some 7⟩ (BackendResult.ok 6) 2 { Queue.initState with ACTIVE_JOBS := [some 4] } { hash := 4, data := some 8 }).sends.getLast? =
      some (Msg.process_completed (BackendResult.ok 6).json,
        (Queue.process_event ⟨fun _ => true, fun _ => some 7⟩ (BackendResult.ok 6) 2 { Queue.initState with ACTIVE_JOBS := [some 4] } { hash := 4, data := some 8 }).disconnected) ∧
    (Queue.process_event ⟨fun _ => true, fun _ => some 7⟩ (BackendResult.ok 6) 2 { Queue.initState with ACTIVE_JOBS := [some 4] } { hash := 4, data := some 8 }).state.ACTIVE_JOBS =
      cleanJobSlots [some 4] 4 ∧
    ((([some 4] : List (Option EventId)).filterMap id).Nodup →
      some 4 ∈ ([some 4] : List (Option EventId)) →
      some 4 ∉ (Queue.process_event ⟨fun _ => true, fun _ => some 7⟩ (BackendResult.ok 6) 2 { Queue.initState with ACTIVE_JOBS := [some 4] } { hash := 4, data := some 8 }).state.ACTIVE_JOBS) :=
  process_event_completion_delivery ⟨fun _ => true, fun _ => some 7⟩
    (BackendResult.ok 6) 2 { Queue.initState with ACTIVE_JOBS := [some 4] }
    { hash := 4, data := some 8 } (by decide)
